import Mathlib

/-!
Formal model of the audio pipeline and lip-sync playback engine of
`src/main.cpp` (Stack-chan minimal voice, English): the bounded sample
buffer, the synthesis sink adapter (`MemoryBufferStream::write`), the level
estimator (`updateLevel`), the mouth-openness mapping and the `speak` state
machine with its chunked playback loop.

Machine integers are modelled as `Nat`/`Int` (all the relevant arithmetic
stays far below any overflow boundary), the `float` mouth-openness value as
`ℚ`, and the hardware/oracle boundary (`espeak.say`, `M5.Speaker.playRaw`,
`millis`, external clearing of the speaking flag) as explicit inputs.
-/

namespace StackChan

/-- `MAX_AUDIO_BUFFER_SIZE` (main.cpp line 36).  The model keeps the buffer
capacity as a field of the state so that properties can be stated for any
capacity; the source fixes it to this constant. -/
def MAX_AUDIO_BUFFER_SIZE : Nat := 160000

/-- `MAX_TEXT_LENGTH` (main.cpp line 37). -/
def MAX_TEXT_LENGTH : Nat := 300

/-- `SPEECH_TIMEOUT_MS` (main.cpp line 39). -/
def SPEECH_TIMEOUT_MS : Nat := 15000

/-- `chunkSize` local constant of `speak` (main.cpp line 255). -/
def chunkSize : Nat := 512

/-- Avatar expressions used by the program (`Expression::Happy`,
`Expression::Neutral`). -/
inductive Expression
  | neutral
  | happy
  deriving DecidableEq, Repr

/-- The global state the pipeline mutates: `g_systemReady`, `g_isSpeaking`,
`g_currentLevel`, the PSRAM audio buffer (`g_audioBuffer` allocation flag and
contents, with `g_audioBufferPos` as `buffer.length`), `g_playbackPos`, plus
the observable avatar/speaker collaborator state (`setMouthOpenRatio`,
`setExpression`, `setSpeechText`, `M5.Speaker.stop`). -/
structure SysState where
  systemReady : Bool
  bufferAllocated : Bool
  capacity : Nat
  buffer : List Int
  playbackPos : Nat
  isSpeaking : Bool
  currentLevel : Nat
  mouthOpenness : ℚ
  expression : Expression
  speechText : String
  speakerStopped : Bool
  deriving DecidableEq, Repr

/-- `g_audioBufferPos`: the write cursor is the number of samples written
since the last reset. -/
def SysState.audioBufferPos (s : SysState) : Nat := s.buffer.length

/-- Arduino `constrain(amt, low, high)` macro on naturals:
`(amt < low) ? low : ((amt > high) ? high : amt)`. -/
def constrain (x lo hi : Nat) : Nat :=
  if x < lo then lo else if hi < x then hi else x

/-- Arduino `constrain` on rationals (model of the `float` variant used for
the mouth-openness value). -/
def constrainQ (x lo hi : ℚ) : ℚ :=
  if x < lo then lo else if hi < x then hi else x

/-- `updateLevel(samples, count)` (main.cpp lines 129-144), returning the
value stored into `g_currentLevel`: 0 for an empty window, otherwise the sum
of the absolute values of the first `min(count, 10)` samples, divided by that
window size, scaled by `100/32767` (integer arithmetic) and constrained to
`[0, 100]`.  The window is passed as a list, so `count = samples.length`. -/
def updateLevel (samples : List Int) : Nat :=
  if samples.length = 0 then 0
  else
    let checkSamples := min samples.length 10
    let sum := ((samples.take checkSamples).map Int.natAbs).sum
    let avgLevel := sum / checkSamples
    constrain (avgLevel * 100 / 32767) 0 100

/-- The mouth-openness mapping of the playback loop (main.cpp line 269):
`(g_currentLevel > 3) ? constrain(g_currentLevel / 30.0f, 0.0f, 1.0f) : 0.0f`. -/
def mouthOpen (level : Nat) : ℚ :=
  if 3 < level then constrainQ ((level : ℚ) / 30) 0 1 else 0

/-- Decode two little-endian bytes as a signed 16-bit sample (the
`(const int16_t*)data` reinterpretation in `MemoryBufferStream::write`). -/
def toInt16 (lo hi : Nat) : Int :=
  let v := lo % 256 + 256 * (hi % 256)
  if v < 32768 then (v : Int) else (v : Int) - 65536

/-- Interpret a byte stream as little-endian 16-bit signed PCM samples;
a trailing odd byte is dropped (`len / sizeof(int16_t)` floors). -/
def bytesToSamples : List Nat → List Int
  | lo :: hi :: rest => toInt16 lo hi :: bytesToSamples rest
  | _ => []

/-- Encode one signed 16-bit sample as two little-endian bytes (used to build
concrete inputs for the sink adapter). -/
def toBytes16 (x : Int) : List Nat :=
  let v := (x % 65536).toNat
  [v % 256, v / 256]

/-- Encode a sample list as a little-endian 16-bit PCM byte stream. -/
def samplesToBytes (xs : List Int) : List Nat :=
  (xs.map toBytes16).flatten

/-- `MemoryBufferStream::write(data, len)` (main.cpp lines 79-99): rejects
everything while `g_systemReady` is false; otherwise copies samples into the
audio buffer while the write cursor is below capacity and the buffer is
allocated, and returns `samplesWritten * sizeof(int16_t)` bytes. -/
def MemoryBufferStream.write (s : SysState) (data : List Nat) : SysState × Nat :=
  if s.systemReady = false then (s, 0)
  else
    let samples := bytesToSamples data
    let samplesWritten :=
      if s.bufferAllocated then min samples.length (s.capacity - s.buffer.length) else 0
    ({ s with buffer := s.buffer ++ samples.take samplesWritten }, samplesWritten * 2)

/-- One call to `M5.Speaker.playRaw` observed by the playback loop: the read
cursor and chunk size dispatched, and the speaking flag / elapsed wall-clock
milliseconds at the moment of dispatch. -/
structure DispatchEvent where
  pos : Nat
  chunk : Nat
  speaking : Bool
  elapsed : Nat
  deriving DecidableEq, Repr

/-- Oracle for the hardware / asynchronous boundary of the playback loop:
`playOk i` is the result of `M5.Speaker.playRaw` at iteration `i`,
`elapsedAt i` the value of `millis() - startTime` sampled at the top of
iteration `i`, and `cancelAt i` whether an external actor cleared
`g_isSpeaking` before the top of iteration `i` was reached. -/
structure PlayEnv where
  playOk : Nat → Bool
  elapsedAt : Nat → Nat
  cancelAt : Nat → Bool

/-- The playback `while` loop of `speak` (main.cpp lines 259-288), indexed by
fuel (the loop provably needs at most `buffer.length` successful iterations).
Each iteration re-checks `g_playbackPos < g_audioBufferPos && g_isSpeaking &&
(millis() - startTime < SPEECH_TIMEOUT_MS)`, takes the chunk
`min(remainingSamples, chunkSize)`, recomputes the level and the mouth
openness, dispatches the chunk (recorded as a `DispatchEvent`), and on a
`playRaw` failure breaks out.  Returns the state at loop exit together with
the list of dispatch events. -/
def playLoop (env : PlayEnv) : Nat → Nat → SysState → SysState × List DispatchEvent
  | 0, _, s => (s, [])
  | fuel + 1, i, s =>
    let s0 := if env.cancelAt i then { s with isSpeaking := false } else s
    if s0.playbackPos < s0.buffer.length ∧ s0.isSpeaking = true ∧
        env.elapsedAt i < SPEECH_TIMEOUT_MS then
      let remainingSamples := s0.buffer.length - s0.playbackPos
      let currentChunk := min remainingSamples chunkSize
      let level := updateLevel ((s0.buffer.drop s0.playbackPos).take currentChunk)
      let s1 := { s0 with currentLevel := level, mouthOpenness := mouthOpen level }
      let ev : DispatchEvent := ⟨s1.playbackPos, currentChunk, s1.isSpeaking, env.elapsedAt i⟩
      let s2 := { s1 with speakerStopped := false }
      if env.playOk i then
        let s3 := { s2 with playbackPos := s2.playbackPos + currentChunk }
        let res := playLoop env fuel (i + 1) s3
        (res.1, ev :: res.2)
      else (s2, [ev])
    else (s0, [])

/-- The distinct fail paths of `speak`, one per early-return / `LOG_E` branch
of the source.  In the spec's error taxonomy (§7): `busyOrNotReady` covers
`RejectedBusy`/`NotReady` (the source merges both into one check),
`bufferNotAllocated` is `NotReady`, `textTooLong` and `emptyText` are
`InvalidInput`, `synthFailed` and `noAudio` are `SynthesisFailed`. -/
inductive SpeakFail
  | busyOrNotReady
  | bufferNotAllocated
  | textTooLong
  | emptyText
  | synthFailed
  | noAudio
  deriving DecidableEq, Repr

/-- Outcome of one `speak` call: the final global state, the boolean return
value, whether the synthesizer (`espeak.say`) was ever invoked, and the
dispatch events of the playback phase. -/
structure SpeakResult where
  state : SysState
  ret : Bool
  synthInvoked : Bool
  dispatches : List DispatchEvent
  failReason : Option SpeakFail
  deriving Repr

/-- The synthesis phase of `speak` (main.cpp lines 200-214): set
`g_isSpeaking`, reset the level and both buffer cursors, then let
`espeak.say` push its PCM chunks through `MemoryBufferStream::write`
(`pushes` is the list of byte chunks the synthesizer produces). -/
def synthesize (s : SysState) (pushes : List (List Nat)) : SysState :=
  pushes.foldl (fun st d => (MemoryBufferStream.write st d).1)
    { s with isSpeaking := true, currentLevel := 0, buffer := [], playbackPos := 0 }

/-- `speak(text)` (main.cpp lines 177-300).  `synthOk` is the return value of
`espeak.say`, `pushes` the PCM byte chunks it writes into the sink, `env` the
playback-loop oracle and `fuel` an iteration bound for the loop.  Mirrors the
source's check order: busy/not-ready, buffer unallocated, text too long, text
empty; then synthesis; then the playback loop followed by the unconditional
completion step (main.cpp lines 291-296). -/
def speak (s : SysState) (text : String) (synthOk : Bool)
    (pushes : List (List Nat)) (env : PlayEnv) (fuel : Nat) : SpeakResult :=
  if s.isSpeaking = true ∨ s.systemReady = false then
    ⟨s, false, false, [], some .busyOrNotReady⟩
  else if s.bufferAllocated = false then
    ⟨s, false, false, [], some .bufferNotAllocated⟩
  else if MAX_TEXT_LENGTH < text.length then
    ⟨s, false, false, [], some .textTooLong⟩
  else if text.length = 0 then
    ⟨s, false, false, [], some .emptyText⟩
  else
    let s2 := synthesize s pushes
    if synthOk = false then
      ⟨{ s2 with isSpeaking := false }, false, true, [], some .synthFailed⟩
    else if s2.buffer.length = 0 then
      ⟨{ s2 with isSpeaking := false }, false, true, [], some .noAudio⟩
    else
      let s3 := { s2 with expression := .happy, speechText := text, playbackPos := 0 }
      let pl := playLoop env fuel 0 s3
      let s5 := { pl.1 with mouthOpenness := 0, expression := .neutral, speechText := "",
                            speakerStopped := true, currentLevel := 0, isSpeaking := false }
      ⟨s5, true, true, pl.2, none⟩

/-- The buffer cursor invariant of the spec (§3):
`0 <= readPos <= writePos <= capacity`, with `readPos = g_playbackPos` and
`writePos = g_audioBufferPos = buffer.length`. -/
def bufInv (s : SysState) : Prop :=
  s.playbackPos ≤ s.buffer.length ∧ s.buffer.length ≤ s.capacity

/-- Test state for the spec's end-to-end scenario A: ready system, allocated
buffer, idle, with the capacity specialised to 1000 samples. -/
def scenarioState : SysState :=
  ⟨true, true, 1000, [], 0, false, 0, 0, .neutral, "", true⟩

/-- Benign playback oracle: every `playRaw` call succeeds, no wall-clock time
passes, no external cancellation. -/
def idealEnv : PlayEnv := ⟨fun _ => true, fun _ => 0, fun _ => false⟩

/-- Scenario A state after the synthesizer pushed 1500 samples into the
capacity-1000 buffer, about to start playback. -/
def scenarioAfterWrite : SysState :=
  { (MemoryBufferStream.write scenarioState (samplesToBytes (List.replicate 1500 0))).1
      with isSpeaking := true }

/-- The state fields the playback loop never touches. -/
def coreFields (s : SysState) : Bool × Bool × Nat × List Int :=
  (s.systemReady, s.bufferAllocated, s.capacity, s.buffer)

/-- The state fields the sink adapter never touches. -/
def ctrlFields (s : SysState) : Bool × Bool × Nat × Bool × Nat :=
  (s.systemReady, s.bufferAllocated, s.capacity, s.isSpeaking, s.playbackPos)

/-- A small ready state, mid-playback: three samples buffered, read cursor at
1, speaking flag set. -/
def testState : SysState := ⟨true, true, 4, [1, 2, 3], 1, true, 0, 0, .neutral, "", false⟩

/-- A small ready idle state with an empty buffer of capacity 100. -/
def idleState : SysState := ⟨true, true, 100, [], 0, false, 0, 0, .neutral, "", true⟩

/-! ## Helper lemmas -/

set_option maxRecDepth 100000

theorem bytesToSamples_toBytes16 (x : Int) (h1 : -32768 ≤ x) (h2 : x ≤ 32767) :
    bytesToSamples (toBytes16 x) = [x] := by
  simp only [toBytes16, bytesToSamples, toInt16]
  split_ifs with h <;> simp only [List.cons.injEq, and_true] <;> omega

theorem bytesToSamples_cons_cons (a b : Nat) (l : List Nat) :
    bytesToSamples (a :: b :: l) = toInt16 a b :: bytesToSamples l := rfl

/-- Decoding inverts encoding on any list of in-range 16-bit samples. -/
theorem bytesToSamples_samplesToBytes (xs : List Int)
    (h : ∀ x ∈ xs, -32768 ≤ x ∧ x ≤ 32767) :
    bytesToSamples (samplesToBytes xs) = xs := by
  induction xs with
  | nil => rfl
  | cons a l ih =>
    have ha := h a (by simp)
    have hl : ∀ x ∈ l, -32768 ≤ x ∧ x ≤ 32767 := fun x hx => h x (by simp [hx])
    have h1 : samplesToBytes (a :: l) =
        ((a % 65536).toNat % 256) :: ((a % 65536).toNat / 256) :: samplesToBytes l := by
      simp [samplesToBytes, toBytes16]
    rw [h1, bytesToSamples_cons_cons, ih hl]
    have h2 : bytesToSamples (toBytes16 a) = [a] := bytesToSamples_toBytes16 a ha.1 ha.2
    simp only [toBytes16, bytesToSamples] at h2
    simp only [List.cons.injEq, and_true] at h2 ⊢
    exact h2

/-- `samples = len / sizeof(int16_t)`: the decoder produces exactly
`bytes / 2` samples. -/
theorem bytesToSamples_length (data : List Nat) :
    (bytesToSamples data).length = data.length / 2 := by
  match data with
  | [] => rfl
  | [a] => simp [bytesToSamples]
  | a :: b :: rest =>
    rw [bytesToSamples_cons_cons]
    simp only [List.length_cons]
    rw [bytesToSamples_length rest]
    omega

theorem constrainQ_eq_self (x lo hi : ℚ) (h0 : lo ≤ x) (h1 : x ≤ hi) :
    constrainQ x lo hi = x := by
  unfold constrainQ
  rw [if_neg (by linarith), if_neg (by linarith)]

theorem constrainQ_eq_hi (x lo hi : ℚ) (h0 : lo ≤ hi) (h1 : hi ≤ x) :
    constrainQ x lo hi = hi := by
  unfold constrainQ
  rw [if_neg (by linarith)]
  split_ifs with h
  · rfl
  · linarith

theorem mouthOpen_eq_div (c : Nat) (hc1 : 3 < c) (hc2 : c ≤ 30) :
    mouthOpen c = (c : ℚ) / 30 := by
  rw [mouthOpen, if_pos hc1, constrainQ_eq_self]
  · positivity
  · rw [div_le_one (by norm_num)]
    exact_mod_cast hc2

theorem write_ctrlFields (s : SysState) (d : List Nat) :
    ctrlFields (MemoryBufferStream.write s d).1 = ctrlFields s := by
  rw [MemoryBufferStream.write]
  split <;> rfl

theorem foldl_write_ctrlFields (pushes : List (List Nat)) (s : SysState) :
    ctrlFields (pushes.foldl (fun st d => (MemoryBufferStream.write st d).1) s)
      = ctrlFields s := by
  induction pushes generalizing s with
  | nil => rfl
  | cons d rest ih => rw [List.foldl_cons, ih, write_ctrlFields]

theorem synthesize_ctrlFields (s : SysState) (pushes : List (List Nat)) :
    ctrlFields (synthesize s pushes)
      = (s.systemReady, s.bufferAllocated, s.capacity, true, 0) := by
  rw [synthesize, foldl_write_ctrlFields]
  rfl

theorem playLoop_coreFields (env : PlayEnv) (fuel i : Nat) (s : SysState) :
    coreFields (playLoop env fuel i s).1 = coreFields s := by
  induction fuel generalizing i s with
  | zero => rfl
  | succ n ih =>
    rw [playLoop]
    set s0 := if env.cancelAt i then { s with isSpeaking := false } else s with hs0
    have h0 : coreFields s0 = coreFields s := by
      rw [hs0]; split <;> rfl
    dsimp only
    split_ifs with hcond hplay
    · rw [ih]
      exact h0
    · exact h0
    · exact h0

theorem write_bufInv (s : SysState) (d : List Nat) (h : bufInv s) :
    bufInv (MemoryBufferStream.write s d).1 := by
  obtain ⟨h1, h2⟩ := h
  rw [MemoryBufferStream.write]
  split_ifs with hr ha <;>
    constructor <;>
    dsimp only [bufInv] <;>
    first
    | omega
    | (simp only [List.length_append, List.length_take]; omega)

theorem foldl_write_bufInv (pushes : List (List Nat)) (s : SysState) (h : bufInv s) :
    bufInv (pushes.foldl (fun st d => (MemoryBufferStream.write st d).1) s) := by
  induction pushes generalizing s with
  | nil => exact h
  | cons d rest ih => exact ih _ (write_bufInv s d h)

theorem synthesize_bufInv (s : SysState) (pushes : List (List Nat)) :
    bufInv (synthesize s pushes) := by
  rw [synthesize]
  exact foldl_write_bufInv pushes _ ⟨Nat.le_refl 0, Nat.zero_le _⟩

theorem playLoop_bufInv (env : PlayEnv) (fuel i : Nat) (s : SysState) (h : bufInv s) :
    bufInv (playLoop env fuel i s).1 := by
  induction fuel generalizing i s with
  | zero => exact h
  | succ n ih =>
    rw [playLoop]
    set s0 := if env.cancelAt i then { s with isSpeaking := false } else s with hs0
    have h0 : bufInv s0 := by
      rw [hs0]; split <;> exact h
    dsimp only
    split_ifs with hcond hplay
    · apply ih
      obtain ⟨a, b⟩ := h0
      have hc := hcond.1
      exact ⟨by dsimp only [bufInv] at *; omega, b⟩
    · exact h0
    · exact h0

/-- Every `playRaw` dispatch recorded by the playback loop took place at a
moment where the loop condition had just been re-checked: the chunk is
`min(remaining, chunkSize)`, stays within the written samples, the speaking
flag was set and the wall-clock timeout not yet exceeded. -/
theorem playLoop_events (env : PlayEnv) (fuel i : Nat) (s : SysState) :
    ∀ e ∈ (playLoop env fuel i s).2,
      e.chunk = min (s.buffer.length - e.pos) chunkSize ∧
      e.pos + e.chunk ≤ s.buffer.length ∧
      e.speaking = true ∧
      e.elapsed < SPEECH_TIMEOUT_MS := by
  induction fuel generalizing i s with
  | zero =>
    intro e he
    simp [playLoop] at he
  | succ n ih =>
    intro e he
    rw [playLoop] at he
    set s0 := if env.cancelAt i then { s with isSpeaking := false } else s with hs0
    have hbuf : s0.buffer = s.buffer := by
      rw [hs0]; split <;> rfl
    dsimp only at he
    split_ifs at he with hcond hplay
    · obtain ⟨h1, h2, h3⟩ := hcond
      rw [hbuf] at h1
      rcases List.mem_cons.mp he with rfl | htail
      · refine ⟨?_, ?_, h2, h3⟩
        · dsimp only
          rw [hbuf]
        · dsimp only
          rw [hbuf]
          omega
      · have h := ih (i + 1) _ e htail
        rw [hbuf] at h
        exact h
    · obtain ⟨h1, h2, h3⟩ := hcond
      rw [hbuf] at h1
      rcases List.mem_cons.mp he with rfl | htail
      · refine ⟨?_, ?_, h2, h3⟩
        · dsimp only
          rw [hbuf]
        · dsimp only
          rw [hbuf]
          omega
      · simp at htail
    · simp at he

theorem synthesize_systemReady (s : SysState) (pushes : List (List Nat)) :
    (synthesize s pushes).systemReady = s.systemReady :=
  congrArg (fun t => t.1) (synthesize_ctrlFields s pushes)

theorem playLoop_systemReady (env : PlayEnv) (fuel i : Nat) (s : SysState) :
    ((playLoop env fuel i s).1).systemReady = s.systemReady :=
  congrArg (fun t => t.1) (playLoop_coreFields env fuel i s)

theorem speak_state_systemReady (s : SysState) (text : String) (synthOk : Bool)
    (pushes : List (List Nat)) (env : PlayEnv) (fuel : Nat) :
    (speak s text synthOk pushes env fuel).state.systemReady = s.systemReady := by
  rw [speak]
  dsimp only
  split_ifs with h1 h2 h3 h4 h5 h6
  · rfl
  · rfl
  · rfl
  · rfl
  · exact synthesize_systemReady s pushes
  · exact synthesize_systemReady s pushes
  · exact (playLoop_systemReady env fuel 0 _).trans (synthesize_systemReady s pushes)

/-! ## Claims -/

/-- C1: for every exit of the playback loop — buffer fully drained, timeout
exceeded, speaking flag cleared externally, or `playRaw` failure (any `env`,
any fuel) — the completion step runs: whenever `speak` reached the playback
phase (`ret = true`), the final state has mouth-openness 0, neutral
expression, cleared caption, stopped audio device, level 0 and cleared
speaking flag, i.e. the machine is back at Idle. -/
theorem C1_completion (s : SysState) (text : String) (synthOk : Bool)
    (pushes : List (List Nat)) (env : PlayEnv) (fuel : Nat)
    (h : (speak s text synthOk pushes env fuel).ret = true) :
    (speak s text synthOk pushes env fuel).state.mouthOpenness = 0 ∧
    (speak s text synthOk pushes env fuel).state.expression = Expression.neutral ∧
    (speak s text synthOk pushes env fuel).state.speechText = "" ∧
    (speak s text synthOk pushes env fuel).state.speakerStopped = true ∧
    (speak s text synthOk pushes env fuel).state.currentLevel = 0 ∧
    (speak s text synthOk pushes env fuel).state.isSpeaking = false := by
  rw [speak] at h ⊢
  dsimp only at h ⊢
  split_ifs at h ⊢ with h1 h2 h3 h4 h5 h6
  exact ⟨rfl, rfl, rfl, rfl, rfl, rfl⟩

theorem C1_witness :
    (speak idleState "hi" true [[1, 0]] idealEnv 3).state.mouthOpenness = 0 ∧
    (speak idleState "hi" true [[1, 0]] idealEnv 3).state.expression = Expression.neutral ∧
    (speak idleState "hi" true [[1, 0]] idealEnv 3).state.speechText = "" ∧
    (speak idleState "hi" true [[1, 0]] idealEnv 3).state.speakerStopped = true ∧
    (speak idleState "hi" true [[1, 0]] idealEnv 3).state.currentLevel = 0 ∧
    (speak idleState "hi" true [[1, 0]] idealEnv 3).state.isSpeaking = false :=
  C1_completion idleState "hi" true [[1, 0]] idealEnv 3 (by decide)

/-- C2: `MemoryBufferStream::write` accepts exactly `n` samples and advances
the write cursor by `n` when `n` fits the remaining capacity, otherwise
accepts exactly the remaining capacity, fills the buffer to capacity and
reports strictly fewer accepted samples than requested; in scenario A
(capacity 1000, 1500 samples pushed) it accepts exactly 1000 and playback
drains them in chunks of 512 then 488. -/
theorem C2_append (s : SysState) (xs : List Int)
    (h16 : ∀ x ∈ xs, -32768 ≤ x ∧ x ≤ 32767)
    (hready : s.systemReady = true) (halloc : s.bufferAllocated = true)
    (hinv : s.buffer.length ≤ s.capacity) :
    ((xs.length ≤ s.capacity - s.buffer.length →
      ((MemoryBufferStream.write s (samplesToBytes xs)).1).buffer.length
        = s.buffer.length + xs.length ∧
      (MemoryBufferStream.write s (samplesToBytes xs)).2 = xs.length * 2) ∧
    (s.capacity - s.buffer.length < xs.length →
      ((MemoryBufferStream.write s (samplesToBytes xs)).1).buffer.length = s.capacity ∧
      (MemoryBufferStream.write s (samplesToBytes xs)).2 < xs.length * 2)) ∧
    ((MemoryBufferStream.write scenarioState (samplesToBytes (List.replicate 1500 0))).2
        = 1000 * 2 ∧
      (playLoop idealEnv 10 0 scenarioAfterWrite).1.playbackPos = 1000 ∧
      (playLoop idealEnv 10 0 scenarioAfterWrite).2.map DispatchEvent.chunk
        = [512, 488]) := by
  have hsamp : bytesToSamples (samplesToBytes xs) = xs :=
    bytesToSamples_samplesToBytes xs h16
  constructor
  · rw [MemoryBufferStream.write, if_neg (by simp [hready])]
    dsimp only
    rw [hsamp, if_pos halloc]
    constructor
    · intro hle
      constructor
      · simp only [List.length_append, List.length_take]
        omega
      · omega
    · intro hgt
      constructor
      · simp only [List.length_append, List.length_take]
        omega
      · omega
  · exact ⟨by decide, by decide, by decide⟩

theorem C2_witness :
    ((MemoryBufferStream.write idleState (samplesToBytes [5, -5])).1).buffer.length
      = idleState.buffer.length + ([5, -5] : List Int).length ∧
    (MemoryBufferStream.write idleState (samplesToBytes [5, -5])).2
      = ([5, -5] : List Int).length * 2 :=
  (C2_append idleState [5, -5] (by decide) rfl rfl (by decide)).1.1 (by decide)

/-- C3 counterexample: the mouth-openness mapping is NOT strictly increasing
for all levels above 3 — at levels 30 and 31 it has already saturated at 1. -/
theorem C3_counterexample :
    ¬ (∀ a b : Nat, 3 < a → a < b → mouthOpen a < mouthOpen b) := by
  intro h
  have h30 := h 30 31 (by norm_num) (by norm_num)
  have e30 : mouthOpen 30 = 1 := by norm_num [mouthOpen, constrainQ]
  have e31 : mouthOpen 31 = 1 := by norm_num [mouthOpen, constrainQ]
  rw [e30, e31] at h30
  exact lt_irrefl 1 h30

/-- C3 (amended): the mouth-openness mapping is 0 for every level at or below
the noise floor 3, equals `clamp(level/30, 0, 1)` otherwise, is strictly
increasing in level on the range `3 < level ≤ 30`, and equals 1.0 for every
level ≥ 30 (so in particular it is capped at 1.0 for level ≥ 33). -/
theorem C3_amended (l a b : Nat) :
    (l ≤ 3 → mouthOpen l = 0) ∧
    (3 < l → mouthOpen l = constrainQ ((l : ℚ) / 30) 0 1) ∧
    (3 < a → a < b → b ≤ 30 → mouthOpen a < mouthOpen b) ∧
    (30 ≤ l → mouthOpen l = 1) := by
  refine ⟨fun h => ?_, fun h => ?_, fun h1 h2 h3 => ?_, fun h => ?_⟩
  · rw [mouthOpen, if_neg (by omega)]
  · rw [mouthOpen, if_pos h]
  · rw [mouthOpen_eq_div a h1 (by omega), mouthOpen_eq_div b (by omega) h3]
    have hab : (a : ℚ) < (b : ℚ) := by exact_mod_cast h2
    linarith
  · rw [mouthOpen, if_pos (by omega), constrainQ_eq_hi]
    · norm_num
    · rw [one_le_div (by norm_num)]
      exact_mod_cast h

theorem C3_witness :
    mouthOpen 2 = 0 ∧ mouthOpen 10 = constrainQ ((10 : ℚ) / 30) 0 1 ∧
    mouthOpen 4 < mouthOpen 5 ∧ mouthOpen 33 = 1 :=
  ⟨(C3_amended 2 4 5).1 (by norm_num),
   (C3_amended 10 4 5).2.1 (by norm_num),
   (C3_amended 10 4 5).2.2.1 (by norm_num) (by norm_num) (by norm_num),
   (C3_amended 33 4 5).2.2.2 (by norm_num)⟩

/-- C4: the level estimator returns 0 for an empty window and for all-zero
windows, returns 100 for windows whose samples all have magnitude 32767
(so both +32767 and -32767), is invariant under negating every sample, and
for a non-empty window equals the source's formula (sum of absolute values
of the first `min(count, 10)` samples, averaged, scaled by `100/32767`,
clamped to `[0, 100]`); determinism is immediate since it is a pure
function of the window. -/
theorem C4_updateLevel (n : Nat) (xs : List Int) :
    updateLevel [] = 0 ∧
    updateLevel (List.replicate n 0) = 0 ∧
    (xs ≠ [] → (∀ x ∈ xs, x.natAbs = 32767) → updateLevel xs = 100) ∧
    updateLevel (xs.map (fun x => -x)) = updateLevel xs ∧
    (xs ≠ [] → updateLevel xs =
      constrain ((((xs.take (min xs.length 10)).map Int.natAbs).sum /
        (min xs.length 10)) * 100 / 32767) 0 100) := by
  refine ⟨rfl, ?_, fun hne habs => ?_, ?_, fun hne => ?_⟩
  · cases n with
    | zero => rfl
    | succ m =>
      rw [updateLevel, if_neg (by simp)]
      simp [List.take_replicate, List.map_replicate, List.sum_replicate, constrain]
  · rw [updateLevel, if_neg (by simp [hne])]
    have hlen : 0 < xs.length := List.length_pos.mpr hne
    set k := min xs.length 10 with hk
    have hkpos : 0 < k := by omega
    have hsum : ((xs.take k).map Int.natAbs).sum
        = ((xs.take k).map Int.natAbs).length • 32767 := by
      apply List.sum_eq_card_nsmul
      intro x hx
      simp only [List.mem_map] at hx
      obtain ⟨y, hy, hxy⟩ := hx
      exact hxy ▸ habs y (List.mem_of_mem_take hy)
    have hklen : ((xs.take k).map Int.natAbs).length = k := by
      simp [List.length_take]
      omega
    dsimp only
    rw [hsum, hklen]
    simp only [smul_eq_mul]
    rw [Nat.mul_div_cancel_left _ hkpos]
    decide
  · rw [updateLevel, updateLevel]
    simp only [List.length_map]
    have : ((xs.map (fun x => -x)).take (min xs.length 10)).map Int.natAbs
        = (xs.take (min xs.length 10)).map Int.natAbs := by
      rw [← List.map_take, List.map_map]
      congr 1
      funext x
      simp [Function.comp, Int.natAbs_neg]
    rw [this]
  · rw [updateLevel, if_neg (by simp [hne])]

theorem C4_witness :
    updateLevel [(32767 : Int)] = 100 ∧ updateLevel (List.replicate 7 (0 : Int)) = 0 :=
  ⟨(C4_updateLevel 7 [32767]).2.2.1 (by decide) (by decide),
   (C4_updateLevel 7 [32767]).2.1⟩

/-- C5: `speak` fails fast — returning `false`, leaving the whole state
unchanged and never invoking the synthesizer — whenever a precondition is
violated (already speaking, system not ready, buffer unallocated, text too
long, text empty); and for the empty string with all other preconditions
satisfied the reported reason is the empty-text branch (the spec's
`InvalidInput`), so `Synthesizing` is never entered. -/
theorem C5_preconditions (s : SysState) (text : String) (synthOk : Bool)
    (pushes : List (List Nat)) (env : PlayEnv) (fuel : Nat) :
    ((s.isSpeaking = true ∨ s.systemReady = false ∨ s.bufferAllocated = false ∨
        MAX_TEXT_LENGTH < text.length ∨ text.length = 0) →
      (speak s text synthOk pushes env fuel).ret = false ∧
      (speak s text synthOk pushes env fuel).state = s ∧
      (speak s text synthOk pushes env fuel).synthInvoked = false) ∧
    (s.isSpeaking = false → s.systemReady = true → s.bufferAllocated = true →
      text.length = 0 →
      (speak s text synthOk pushes env fuel).failReason = some SpeakFail.emptyText) := by
  constructor
  · intro hv
    rw [speak]
    dsimp only
    split_ifs with h1 h2 h3 h4 h5 h6 <;>
      first
      | exact ⟨rfl, rfl, rfl⟩
      | (exfalso
         rcases hv with h | h | h | h | h
         · exact h1 (Or.inl h)
         · exact h1 (Or.inr h)
         · exact h2 h
         · exact h3 h
         · exact h4 h)
  · intro ha hb hc hd
    rw [speak]
    rw [if_neg (by simp [ha, hb]), if_neg (by simp [hc]), if_neg (by omega), if_pos hd]

theorem C5_witness :
    ((speak testState "x" true [] idealEnv 1).ret = false ∧
      (speak testState "x" true [] idealEnv 1).state = testState ∧
      (speak testState "x" true [] idealEnv 1).synthInvoked = false) ∧
    (speak idleState "" true [[1, 0]] idealEnv 1).failReason = some SpeakFail.emptyText :=
  ⟨(C5_preconditions testState "x" true [] idealEnv 1).1 (Or.inl rfl),
   (C5_preconditions idleState "" true [[1, 0]] idealEnv 1).2 rfl rfl rfl (by decide)⟩

/-- C6: the speech request gate admits at most one request at a time — a
`speak` call on a state whose speaking flag is set is rejected (returns
false, state untouched, reason busy, hence dropped not queued); any `speak`
call from a non-speaking state ends with the speaking flag cleared again,
whatever the outcome; and a second call issued after the first completed is
never rejected with the busy/not-ready reason. -/
theorem C6_gate (s : SysState) (t1 t2 : String) (k1 k2 : Bool)
    (p1 p2 : List (List Nat)) (e1 e2 : PlayEnv) (f1 f2 : Nat) :
    (s.isSpeaking = true →
      (speak s t1 k1 p1 e1 f1).ret = false ∧
      (speak s t1 k1 p1 e1 f1).state = s ∧
      (speak s t1 k1 p1 e1 f1).failReason = some SpeakFail.busyOrNotReady) ∧
    (s.isSpeaking = false →
      (speak s t1 k1 p1 e1 f1).state.isSpeaking = false) ∧
    (s.isSpeaking = false → s.systemReady = true →
      (speak (speak s t1 k1 p1 e1 f1).state t2 k2 p2 e2 f2).failReason
        ≠ some SpeakFail.busyOrNotReady) := by
  refine ⟨fun hb => ?_, fun hi => ?_, fun hi hr => ?_⟩
  · rw [speak, if_pos (Or.inl hb)]
    exact ⟨rfl, rfl, rfl⟩
  · rw [speak]
    dsimp only
    split_ifs with h1 h2 h3 h4 h5 h6
    · exact hi
    · exact hi
    · exact hi
    · exact hi
    · rfl
    · rfl
    · rfl
  · have hsp : (speak s t1 k1 p1 e1 f1).state.isSpeaking = false := by
      rw [speak]
      dsimp only
      split_ifs with h1 h2 h3 h4 h5 h6
      · exact hi
      · exact hi
      · exact hi
      · exact hi
      · rfl
      · rfl
      · rfl
    have hrd : (speak s t1 k1 p1 e1 f1).state.systemReady = true :=
      (speak_state_systemReady s t1 k1 p1 e1 f1).trans hr
    rw [speak]
    dsimp only
    split_ifs with h1 h2 h3 h4 h5 h6
    · exact absurd h1 (by simp [hsp, hrd])
    · simp
    · simp
    · simp
    · simp
    · simp
    · simp

theorem C6_witness :
    ((speak testState "x" true [] idealEnv 1).ret = false ∧
      (speak testState "x" true [] idealEnv 1).state = testState ∧
      (speak testState "x" true [] idealEnv 1).failReason
        = some SpeakFail.busyOrNotReady) ∧
    (speak idleState "hi" true [[1, 0]] idealEnv 3).state.isSpeaking = false ∧
    (speak (speak idleState "hi" true [[1, 0]] idealEnv 3).state "again" true [[1, 0]]
        idealEnv 3).failReason ≠ some SpeakFail.busyOrNotReady :=
  ⟨(C6_gate testState "x" "y" true true [] [] idealEnv idealEnv 1 1).1 rfl,
   (C6_gate idleState "hi" "again" true true [[1, 0]] [[1, 0]] idealEnv idealEnv 3 3).2.1 rfl,
   (C6_gate idleState "hi" "again" true true [[1, 0]] [[1, 0]] idealEnv idealEnv 3 3).2.2
     rfl rfl⟩

/-- C7: the cursor invariant `0 ≤ readPos ≤ writePos ≤ capacity` is preserved
by the sink append, by the playback loop and by a whole `speak` call, and
every playback iteration reads exactly `min(remaining unread, 512)` samples,
never advancing the read cursor past the write cursor. -/
theorem C7_cursor_invariant (s : SysState) (d : List Nat) (text : String)
    (synthOk : Bool) (pushes : List (List Nat)) (env : PlayEnv) (fuel i : Nat)
    (h : bufInv s) :
    bufInv (MemoryBufferStream.write s d).1 ∧
    bufInv (playLoop env fuel i s).1 ∧
    bufInv (speak s text synthOk pushes env fuel).state ∧
    (∀ e ∈ (playLoop env fuel i s).2,
      e.chunk = min (s.buffer.length - e.pos) chunkSize ∧
      e.pos + e.chunk ≤ s.buffer.length) := by
  refine ⟨write_bufInv s d h, playLoop_bufInv env fuel i s h, ?_,
    fun e he => ⟨(playLoop_events env fuel i s e he).1,
      (playLoop_events env fuel i s e he).2.1⟩⟩
  rw [speak]
  dsimp only
  split_ifs with h1 h2 h3 h4 h5 h6
  · exact h
  · exact h
  · exact h
  · exact h
  · exact synthesize_bufInv s pushes
  · exact synthesize_bufInv s pushes
  · exact playLoop_bufInv env fuel 0 _ ⟨Nat.zero_le _, (synthesize_bufInv s pushes).2⟩

theorem C7_witness :
    bufInv (MemoryBufferStream.write testState [9, 0]).1 ∧
    bufInv (playLoop idealEnv 3 0 testState).1 ∧
    bufInv (speak testState "x" true [] idealEnv 3).state ∧
    (∀ e ∈ (playLoop idealEnv 3 0 testState).2,
      e.chunk = min (testState.buffer.length - e.pos) chunkSize ∧
      e.pos + e.chunk ≤ testState.buffer.length) :=
  C7_cursor_invariant testState [9, 0] "x" true [] idealEnv 3 0 ⟨by decide, by decide⟩

/-- C8: the playback loop never dispatches a chunk after the speaking flag
has been cleared or after the wall-clock timeout has been exceeded — at
every recorded `playRaw` dispatch the flag was still set and the elapsed
time sampled at the top of that iteration was below `SPEECH_TIMEOUT_MS`. -/
theorem C8_dispatch_conditions (env : PlayEnv) (fuel i : Nat) (s : SysState) :
    ∀ e ∈ (playLoop env fuel i s).2,
      e.speaking = true ∧ e.elapsed < SPEECH_TIMEOUT_MS :=
  fun e he => ⟨(playLoop_events env fuel i s e he).2.2.1,
    (playLoop_events env fuel i s e he).2.2.2⟩

theorem C8_witness :
    (⟨1, 2, true, 0⟩ : DispatchEvent).speaking = true ∧
    (⟨1, 2, true, 0⟩ : DispatchEvent).elapsed < SPEECH_TIMEOUT_MS :=
  C8_dispatch_conditions idealEnv 3 0 testState ⟨1, 2, true, 0⟩ (by decide)

/-- C9: the sink adapter returns to the synthesizer exactly
`samplesAccepted * 2` bytes (twice the number of samples actually appended),
interprets its input as little-endian 16-bit PCM (`samples = bytes / 2`),
and when the system is not ready accepts zero bytes leaving the state
untouched. -/
theorem C9_write_bytes (s : SysState) (data : List Nat) :
    (s.systemReady = true →
      (MemoryBufferStream.write s data).2 =
        2 * (((MemoryBufferStream.write s data).1).buffer.length - s.buffer.length)) ∧
    (s.systemReady = false →
      (MemoryBufferStream.write s data).1 = s ∧
      (MemoryBufferStream.write s data).2 = 0) ∧
    (bytesToSamples data).length = data.length / 2 := by
  refine ⟨fun hr => ?_, fun hr => ?_, bytesToSamples_length data⟩
  · rw [MemoryBufferStream.write, if_neg (by simp [hr])]
    dsimp only
    split_ifs with ha
    · simp only [List.length_append, List.length_take]
      omega
    · simp
  · rw [MemoryBufferStream.write, if_pos hr]
    exact ⟨rfl, rfl⟩

theorem C9_witness :
    (MemoryBufferStream.write idleState [7, 0, 7]).2 =
      2 * (((MemoryBufferStream.write idleState [7, 0, 7]).1).buffer.length
        - idleState.buffer.length) :=
  (C9_write_bytes idleState [7, 0, 7]).1 rfl

/-- C10: once the preconditions pass, the synthesizer reports success and at
least one sample was produced, `speak` returns `true` for every playback
environment — full drain, timeout, external cancellation and `playRaw`
failure alike — so the boolean result never reflects playback-phase
failures. -/
theorem C10_ret_true (s : SysState) (text : String) (pushes : List (List Nat))
    (env : PlayEnv) (fuel : Nat)
    (h1 : s.isSpeaking = false) (h2 : s.systemReady = true) (h3 : s.bufferAllocated = true)
    (h4 : text.length ≤ MAX_TEXT_LENGTH) (h5 : ¬text.length = 0)
    (h6 : 0 < (synthesize s pushes).buffer.length) :
    (speak s text true pushes env fuel).ret = true := by
  rw [speak]
  rw [if_neg (by simp [h1, h2]), if_neg (by simp [h3]), if_neg (by omega), if_neg h5]
  dsimp only
  rw [if_neg (by simp), if_neg (by omega)]

theorem C10_witness :
    (speak idleState "hi" true [[1, 0]] (⟨fun _ => false, fun _ => 20000, fun _ => true⟩)
      3).ret = true :=
  C10_ret_true idleState "hi" [[1, 0]] ⟨fun _ => false, fun _ => 20000, fun _ => true⟩ 3
    rfl rfl rfl (by decide) (by decide) (by decide)

end StackChan
